import Mathlib

/-!
Shallow embedding of the LLM Data Platform's dataset pipeline
(`src/data/{ingestion,cleaning,filtering,versioning,pipeline}.py` and
`src/training/registry.py`), together with theorems settling the claims
about it.  Python loops that append to a `result` list are embedded as
`List.foldl` over the same step function; Python sets of seen keys are
embedded as lists used only through membership; machine-level details
(SHA-256 word arithmetic) use `Nat` with explicit `% 2 ^ 32`.
-/

namespace LLMDataPlatform

/-- The `Sample` dataclass from `src/data/ingestion.py`:
`id`, `input`, `output`, `source`, all strings. -/
structure Sample where
  id : String
  input : String
  output : String
  source : String
deriving DecidableEq, Repr

/-! ## Cleaning (`src/data/cleaning.py`) -/

/-- The character class stripped by Python's `str.strip()` (`str.isspace`):
ASCII whitespace, the C1 separators, and the Unicode space separators. -/
def pyIsSpace (c : Char) : Bool :=
  c == ' ' || c == '\t' || c == '\n' || c == '\x0b' || c == '\x0c' || c == '\r' ||
  c == '\x1c' || c == '\x1d' || c == '\x1e' || c == '\x1f' ||
  c == '\x85' || c == '\xa0' || c == ' ' ||
  (decide (0x2000 ≤ c.toNat) && decide (c.toNat ≤ 0x200a)) ||
  c == ' ' || c == ' ' || c == ' ' || c == ' ' || c == '　'

/-- Python `str.strip()`: drop leading and trailing whitespace characters. -/
def pyStrip (s : String) : String :=
  String.mk (((s.data.dropWhile pyIsSpace).reverse.dropWhile pyIsSpace).reverse)

/-- The condition under which `remove_empty_samples` keeps a sample:
`inp.strip() and out.strip()` is truthy, i.e. both strips are non-empty. -/
def keepNonEmpty (s : Sample) : Bool :=
  !(pyStrip s.input).isEmpty && !(pyStrip s.output).isEmpty

/-- `remove_empty_samples` from `src/data/cleaning.py`: a loop appending to
`result` every sample whose stripped input and output are both truthy.
(The `if s.input is not None` guards are vacuous: the fields are typed `str`.) -/
def remove_empty_samples (samples : List Sample) : List Sample :=
  samples.foldl (fun result s => if keepNonEmpty s then result ++ [s] else result) []

/-- The deduplication key of a sample: the `(input, output)` pair. -/
def sampleKey (s : Sample) : String × String := (s.input, s.output)

/-- One step of the `remove_duplicate_samples` loop: state is the `seen` set
(a list used via membership) and the `result` list. -/
def dedupStep (st : List (String × String) × List Sample) (s : Sample) :
    List (String × String) × List Sample :=
  if sampleKey s ∈ st.1 then st else (sampleKey s :: st.1, st.2 ++ [s])

/-- `remove_duplicate_samples` from `src/data/cleaning.py`: keep the first
occurrence of each `(input, output)` pair, tracked in a `seen` set. -/
def remove_duplicate_samples (samples : List Sample) : List Sample :=
  (samples.foldl dedupStep ([], [])).2

/-! ## Filtering (`src/data/filtering.py`) -/

/-- `filter_by_min_length`: identity when `min_length <= 0`, otherwise keep
samples whose input and output character counts are at least `min_length`. -/
def filter_by_min_length (samples : List Sample) (min_length : Int) : List Sample :=
  if min_length ≤ 0 then samples
  else samples.filter fun s =>
    decide ((min_length ≤ (s.input.length : Int)) ∧ (min_length ≤ (s.output.length : Int)))

/-- `cs` starts with `n` copies of the character `c`
(the backreference part `\1{n,}` of the noise regex, matched greedily
at a fixed position: only the first `n` repetitions matter for a match). -/
def runStartsWith (c : Char) : Nat → List Char → Bool
  | 0, _ => true
  | _ + 1, [] => false
  | n + 1, d :: rest => c == d && runStartsWith c n rest

/-- `re.search` of the pattern `(.)\1{m,}`: some position holds a character
`c` — the regex `.` does not match a newline — followed by at least `m`
further copies of `c`. -/
def hasLongRun (m : Nat) : List Char → Bool
  | [] => false
  | c :: rest => (c != '\n' && runStartsWith c m rest) || hasLongRun m rest

/-- `_has_excessive_repeat` from `src/data/filtering.py`: false for empty
text or `max_repeat < 1`, else search for `(.)\1{max_repeat,}`. -/
def _has_excessive_repeat (text : String) (max_repeat : Int) : Bool :=
  if text.isEmpty || decide (max_repeat < 1) then false
  else hasLongRun max_repeat.toNat text.data

/-- `filter_noise` from `src/data/filtering.py`: drop samples whose input or
output has an excessive character repeat. -/
def filter_noise (samples : List Sample) (max_repeat : Int := 10) : List Sample :=
  samples.filter fun s =>
    !_has_excessive_repeat s.input max_repeat && !_has_excessive_repeat s.output max_repeat

/-- The projections of the configuration mapping that `clean_and_filter`
reads (spec §6 types them): `remove_duplicates` and `filter_noise` hold the
truthiness of `config.get(key, False)`; `min_length` and `noise_max_repeat`
hold the integer value when the key is present (`none` when absent). -/
structure FilterConfig where
  remove_duplicates : Bool := false
  min_length : Option Int := none
  filter_noise : Bool := false
  noise_max_repeat : Option Int := none
deriving DecidableEq, Repr

/-- `clean_and_filter` from `src/data/filtering.py`: remove empties, then
conditionally dedup, min-length filter, and noise filter, in that order. -/
def clean_and_filter (samples : List Sample) (config : FilterConfig) : List Sample :=
  let out := remove_empty_samples samples
  let out := if config.remove_duplicates then remove_duplicate_samples out else out
  let out := match config.min_length with
    | some n => filter_by_min_length out n
    | none => out
  let out := if config.filter_noise then
      filter_noise out (config.noise_max_repeat.getD 10)
    else out
  out

/-- The conditional deduplication stage of `clean_and_filter`. -/
def dedupStage (cfg : FilterConfig) (l : List Sample) : List Sample :=
  if cfg.remove_duplicates then remove_duplicate_samples l else l

/-- The conditional minimum-length stage of `clean_and_filter`. -/
def minLenStage (cfg : FilterConfig) (l : List Sample) : List Sample :=
  match cfg.min_length with
  | some n => filter_by_min_length l n
  | none => l

/-- The conditional noise-filtering stage of `clean_and_filter`. -/
def noiseStage (cfg : FilterConfig) (l : List Sample) : List Sample :=
  if cfg.filter_noise then filter_noise l (cfg.noise_max_repeat.getD 10) else l

/-! ## Lemmas about the cleaning loops -/

theorem foldl_keep_eq_filter (l : List Sample) (acc : List Sample) :
    l.foldl (fun result s => if keepNonEmpty s then result ++ [s] else result) acc
      = acc ++ l.filter keepNonEmpty := by
  induction l generalizing acc with
  | nil => simp
  | cons s rest ih =>
    simp only [List.foldl_cons, List.filter_cons]
    by_cases h : keepNonEmpty s
    · simp [h, ih, List.append_assoc]
    · simp [h, ih]

theorem remove_empty_eq_filter (samples : List Sample) :
    remove_empty_samples samples = samples.filter keepNonEmpty := by
  simpa [remove_empty_samples] using foldl_keep_eq_filter samples []

/-- Direct-recursion normal form of the `remove_duplicate_samples` loop. -/
def dedupGo (seen : List (String × String)) : List Sample → List Sample
  | [] => []
  | s :: rest =>
    if sampleKey s ∈ seen then dedupGo seen rest
    else s :: dedupGo (sampleKey s :: seen) rest

theorem foldl_dedupStep (l : List Sample) (seen : List (String × String)) (acc : List Sample) :
    (l.foldl dedupStep (seen, acc)).2 = acc ++ dedupGo seen l := by
  induction l generalizing seen acc with
  | nil => simp [dedupGo]
  | cons s rest ih =>
    simp only [List.foldl_cons, dedupStep, dedupGo]
    by_cases h : sampleKey s ∈ seen
    · simp [h, ih]
    · simp [h, ih, List.append_assoc]

theorem remove_dup_eq_dedupGo (samples : List Sample) :
    remove_duplicate_samples samples = dedupGo [] samples := by
  simpa [remove_duplicate_samples] using foldl_dedupStep samples [] []

theorem dedupGo_sublist (l : List Sample) (seen : List (String × String)) :
    List.Sublist (dedupGo seen l) l := by
  induction l generalizing seen with
  | nil => simp [dedupGo]
  | cons s rest ih =>
    simp only [dedupGo]
    by_cases h : sampleKey s ∈ seen
    · simp only [if_pos h]
      exact (ih seen).cons s
    · simp only [if_neg h]
      exact (ih _).cons₂ s

theorem dedupGo_key_not_seen (l : List Sample) (seen : List (String × String)) :
    ∀ t ∈ dedupGo seen l, sampleKey t ∉ seen := by
  induction l generalizing seen with
  | nil => simp [dedupGo]
  | cons s rest ih =>
    simp only [dedupGo]
    by_cases h : sampleKey s ∈ seen
    · simp only [if_pos h]
      exact ih seen
    · simp only [if_neg h, List.mem_cons]
      rintro t (rfl | ht)
      · exact h
      · intro hmem
        exact (ih _ t ht) (List.mem_cons_of_mem _ hmem)

theorem dedupGo_keys_nodup (l : List Sample) (seen : List (String × String)) :
    ((dedupGo seen l).map sampleKey).Nodup := by
  induction l generalizing seen with
  | nil => simp [dedupGo]
  | cons s rest ih =>
    simp only [dedupGo]
    by_cases h : sampleKey s ∈ seen
    · simp only [if_pos h]
      exact ih seen
    · simp only [if_neg h, List.map_cons, List.nodup_cons]
      refine ⟨fun hmem => ?_, ih _⟩
      obtain ⟨t, ht, hk⟩ := List.mem_map.mp hmem
      exact (dedupGo_key_not_seen rest _ t ht) (by simp [hk])

theorem dedupGo_eq_self (l : List Sample) (seen : List (String × String))
    (hseen : ∀ t ∈ l, sampleKey t ∉ seen) (hnd : (l.map sampleKey).Nodup) :
    dedupGo seen l = l := by
  induction l generalizing seen with
  | nil => simp [dedupGo]
  | cons s rest ih =>
    simp only [List.map_cons, List.nodup_cons] at hnd
    have hs : sampleKey s ∉ seen := hseen s (List.mem_cons_self s rest)
    simp only [dedupGo, if_neg hs]
    congr 1
    refine ih _ (fun t ht => ?_) hnd.2
    simp only [List.mem_cons]
    rintro (hk | hk)
    · exact hnd.1 (hk ▸ List.mem_map_of_mem sampleKey ht)
    · exact hseen t (List.mem_cons_of_mem s ht) hk

theorem dedupGo_complete (l : List Sample) (seen : List (String × String)) :
    ∀ s ∈ l, sampleKey s ∈ seen ∨ ∃ t ∈ dedupGo seen l, sampleKey t = sampleKey s := by
  induction l generalizing seen with
  | nil => simp
  | cons a rest ih =>
    simp only [dedupGo, List.mem_cons]
    rintro s (rfl | hs)
    · by_cases h : sampleKey s ∈ seen
      · exact Or.inl h
      · exact Or.inr ⟨s, by simp [if_neg h], rfl⟩
    · by_cases h : sampleKey a ∈ seen
      · simpa [if_pos h] using ih seen s hs
      · rcases ih (sampleKey a :: seen) s hs with hmem | ⟨t, ht, hk⟩
        · rcases List.mem_cons.mp hmem with hk | hmem
          · exact Or.inr ⟨a, by simp [if_neg h], hk.symm⟩
          · exact Or.inl hmem
        · exact Or.inr ⟨t, by simp [if_neg h, ht], hk⟩

theorem dedupGo_first_occurrence (l : List Sample) (seen : List (String × String)) :
    ∀ t ∈ dedupGo seen l,
      ∃ l₁ l₂, l = l₁ ++ t :: l₂ ∧ ∀ u ∈ l₁, sampleKey u ≠ sampleKey t := by
  induction l generalizing seen with
  | nil => simp [dedupGo]
  | cons a rest ih =>
    intro t ht
    simp only [dedupGo] at ht
    by_cases h : sampleKey a ∈ seen
    · rw [if_pos h] at ht
      obtain ⟨l₁, l₂, hsplit, hne⟩ := ih seen t ht
      have hta : sampleKey t ∉ seen := dedupGo_key_not_seen rest seen t ht
      refine ⟨a :: l₁, l₂, by rw [hsplit, List.cons_append], ?_⟩
      intro u hu
      rcases List.mem_cons.mp hu with rfl | hu
      · exact fun hk => hta (hk ▸ h)
      · exact hne u hu
    · rw [if_neg h] at ht
      rcases List.mem_cons.mp ht with rfl | ht
      · exact ⟨[], rest, rfl, by simp⟩
      · obtain ⟨l₁, l₂, hsplit, hne⟩ := ih _ t ht
        have hta : sampleKey t ∉ sampleKey a :: seen := dedupGo_key_not_seen rest _ t ht
        refine ⟨a :: l₁, l₂, by rw [hsplit, List.cons_append], ?_⟩
        intro u hu
        rcases List.mem_cons.mp hu with rfl | hu
        · exact fun hk => hta (by simp [hk])
        · exact hne u hu

/-! ## Lemmas about the noise-run detector -/

theorem runStartsWith_iff (c : Char) (n : Nat) (cs : List Char) :
    runStartsWith c n cs = true ↔ List.replicate n c <+: cs := by
  induction n generalizing cs with
  | zero => simp [runStartsWith]
  | succ n ih =>
    cases cs with
    | nil => simp [runStartsWith, List.replicate_succ]
    | cons d rest =>
      simp [runStartsWith, List.replicate_succ, List.cons_prefix_cons, ih,
        Bool.and_eq_true, beq_iff_eq]

theorem hasLongRun_iff (m : Nat) (cs : List Char) :
    hasLongRun m cs = true ↔
      ∃ c, c ≠ '\n' ∧ List.replicate (m + 1) c <:+: cs := by
  induction cs with
  | nil => simp [hasLongRun, List.replicate_succ]
  | cons d rest ih =>
    simp only [hasLongRun, Bool.or_eq_true, Bool.and_eq_true, bne_iff_ne, ih]
    constructor
    · rintro (⟨hd, hrun⟩ | ⟨c, hc, hinf⟩)
      · refine ⟨d, hd, ?_⟩
        rw [List.replicate_succ]
        exact (List.cons_prefix_cons.mpr ⟨rfl, (runStartsWith_iff d m rest).mp hrun⟩).isInfix
      · exact ⟨c, hc, hinf.trans (List.suffix_cons d rest).isInfix⟩
    · rintro ⟨c, hc, hinf⟩
      rcases List.infix_cons_iff.mp hinf with hpre | hinf'
      · left
        rw [List.replicate_succ] at hpre
        obtain ⟨rfl, hrest⟩ := List.cons_prefix_cons.mp hpre
        exact ⟨hc, (runStartsWith_iff c m rest).mpr hrest⟩
      · exact Or.inr ⟨c, hc, hinf'⟩

theorem has_excessive_repeat_iff (text : String) (m : Int) :
    _has_excessive_repeat text m = true ↔
      1 ≤ m ∧ ∃ c, c ≠ '\n' ∧ List.replicate (m.toNat + 1) c <:+: text.data := by
  unfold _has_excessive_repeat
  by_cases hm : m < 1
  · rw [if_pos (by simp [hm] : (text.isEmpty || decide (m < 1)) = true)]
    constructor
    · intro h; simp at h
    · rintro ⟨h1, -⟩; omega
  · have h1 : 1 ≤ m := by omega
    by_cases ht : text.isEmpty
    · have hdata : text.data = [] := by
        have : text = "" := (String.isEmpty_iff text).mp ht
        rw [this]
      rw [if_pos (by simp [ht] : (text.isEmpty || decide (m < 1)) = true), hdata]
      constructor
      · intro h; simp at h
      · rintro ⟨-, c, -, hinf⟩
        have := List.eq_nil_of_infix_nil hinf
        simp [List.replicate_succ] at this
    · rw [if_neg (by simp [ht, hm] : ¬(text.isEmpty || decide (m < 1)) = true),
        hasLongRun_iff]
      simp [h1]

/-! ## Sublist facts for the pipeline stages -/

theorem filter_noise_sublist (l : List Sample) (m : Int) :
    List.Sublist (filter_noise l m) l :=
  List.filter_sublist l

theorem dedupStage_sublist (cfg : FilterConfig) (l : List Sample) :
    List.Sublist (dedupStage cfg l) l := by
  unfold dedupStage
  by_cases h : cfg.remove_duplicates
  · rw [if_pos h, remove_dup_eq_dedupGo]
    exact dedupGo_sublist l []
  · rw [if_neg h]

theorem minLenStage_sublist (cfg : FilterConfig) (l : List Sample) :
    List.Sublist (minLenStage cfg l) l := by
  rcases h : cfg.min_length with - | n
  · simp [minLenStage, h]
  · simp only [minLenStage, h]
    unfold filter_by_min_length
    by_cases hn : n ≤ 0
    · rw [if_pos hn]
    · rw [if_neg hn]
      exact List.filter_sublist l

theorem noiseStage_sublist (cfg : FilterConfig) (l : List Sample) :
    List.Sublist (noiseStage cfg l) l := by
  unfold noiseStage
  by_cases h : cfg.filter_noise
  · rw [if_pos h]; exact List.filter_sublist l
  · rw [if_neg h]

/-! ## Claims about cleaning and filtering -/

/-- C7: `remove_empty_samples` returns the subsequence containing exactly
those samples whose input and output are both non-blank after trimming
whitespace, in original order. -/
theorem remove_empty_samples_exactly_nonblank (samples : List Sample) :
    remove_empty_samples samples
      = samples.filter fun s =>
          !(pyStrip s.input).isEmpty && !(pyStrip s.output).isEmpty := by
  rw [remove_empty_eq_filter]; rfl

/-- C8: `remove_duplicate_samples` returns, in original order, exactly one
representative per distinct `(input, output)` pair — the first occurrence
by position — with the pair compared by exact string equality. -/
theorem remove_duplicate_samples_first_per_key (samples : List Sample) :
    List.Sublist (remove_duplicate_samples samples) samples ∧
    ((remove_duplicate_samples samples).map sampleKey).Nodup ∧
    (∀ s ∈ samples, ∃ t ∈ remove_duplicate_samples samples,
      sampleKey t = sampleKey s) ∧
    (∀ t ∈ remove_duplicate_samples samples,
      ∃ l₁ l₂, samples = l₁ ++ t :: l₂ ∧ ∀ u ∈ l₁, sampleKey u ≠ sampleKey t) := by
  rw [remove_dup_eq_dedupGo]
  refine ⟨dedupGo_sublist samples [], dedupGo_keys_nodup samples [], ?_,
    dedupGo_first_occurrence samples []⟩
  intro s hs
  rcases dedupGo_complete samples [] s hs with h | h
  · simp at h
  · exact h

/-- The duplicate-pair example from spec §8. -/
def dupDemo : List Sample :=
  [⟨"d_0", "same", "out", "demo"⟩, ⟨"d_1", "other", "val", "demo"⟩,
   ⟨"d_2", "same", "out", "demo"⟩, ⟨"d_3", "other", "val", "demo"⟩]

theorem remove_duplicate_samples_first_per_key_witness :
    (⟨"d_2", "same", "out", "demo"⟩ : Sample) ∈ dupDemo ∧
    ∃ t ∈ remove_duplicate_samples dupDemo,
      sampleKey t = sampleKey (⟨"d_2", "same", "out", "demo"⟩ : Sample) :=
  ⟨by decide, (remove_duplicate_samples_first_per_key dupDemo).2.2.1 _ (by decide)⟩

/-- C6: `clean_and_filter` is the fixed-order composition: remove-empty
(always), then remove-duplicates exactly when `remove_duplicates` is
truthy, then the min-length filter exactly when `min_length` is present,
then the noise filter exactly when `filter_noise` is truthy (with
`noise_max_repeat` defaulting to 10), each stage consuming the previous
stage's output. -/
theorem clean_and_filter_fixed_order (samples : List Sample) (cfg : FilterConfig) :
    clean_and_filter samples cfg
      = noiseStage cfg (minLenStage cfg (dedupStage cfg
          (remove_empty_samples samples))) := rfl

/-- A sample whose input is a run of twelve newline characters. -/
def newlineRunSample : Sample :=
  ⟨"nl_0", String.mk (List.replicate 12 '\n'), "ok", "demo"⟩

/-- C4 counterexample: this sample's input contains a single character
(`'\n'`) repeated 12 > 10 consecutive times, yet `filter_noise` with
`max_repeat = 10` keeps it: the regex `.` never matches a newline. -/
theorem filter_noise_keeps_newline_run :
    (∃ c : Char, List.replicate 11 c <:+: newlineRunSample.input.data) ∧
    filter_noise [newlineRunSample] 10 = [newlineRunSample] := by
  constructor
  · refine ⟨'\n', [], ['\n'], ?_⟩
    decide
  · decide

/-- C4 (amended): for every `maxRepeat`, `filter_noise` keeps, in original
order, exactly the samples without an excessive repeat, where text has an
excessive repeat iff `maxRepeat ≥ 1` and some single NON-NEWLINE character
occurs repeated strictly more than `maxRepeat` consecutive times (newline
runs are never detected, and `maxRepeat < 1` disables the filter). -/
theorem filter_noise_drops_nonnewline_runs (samples : List Sample) (maxRepeat : Int) :
    filter_noise samples maxRepeat
      = samples.filter (fun s =>
          !_has_excessive_repeat s.input maxRepeat &&
          !_has_excessive_repeat s.output maxRepeat) ∧
    ∀ text : String,
      _has_excessive_repeat text maxRepeat = true ↔
        1 ≤ maxRepeat ∧
          ∃ c, c ≠ '\n' ∧ List.replicate (maxRepeat.toNat + 1) c <:+: text.data :=
  ⟨rfl, fun text => has_excessive_repeat_iff text maxRepeat⟩

/-- C10: `clean_and_filter` is idempotent — applying it with the same
config to its own output returns that output unchanged. -/
theorem clean_and_filter_idempotent (samples : List Sample) (cfg : FilterConfig) :
    clean_and_filter (clean_and_filter samples cfg) cfg
      = clean_and_filter samples cfg := by
  have staged : ∀ l, clean_and_filter l cfg
      = noiseStage cfg (minLenStage cfg (dedupStage cfg (remove_empty_samples l))) :=
    fun _ => rfl
  rw [staged, staged]
  set E := remove_empty_samples samples with hE
  set D := dedupStage cfg E with hD
  set M := minLenStage cfg D with hM
  set O := noiseStage cfg M with hO
  have hOM : List.Sublist O M := by rw [hO]; exact noiseStage_sublist cfg M
  have hMD : List.Sublist M D := by rw [hM]; exact minLenStage_sublist cfg D
  have hDE : List.Sublist D E := by rw [hD]; exact dedupStage_sublist cfg E
  have hOD := hOM.trans hMD
  have hOE := hOD.trans hDE
  have h1 : remove_empty_samples O = O := by
    rw [remove_empty_eq_filter]
    apply List.filter_eq_self.mpr
    intro a ha
    have haE : a ∈ E := hOE.subset ha
    rw [hE, remove_empty_eq_filter] at haE
    exact List.of_mem_filter haE
  have h2 : dedupStage cfg O = O := by
    unfold dedupStage
    by_cases hrd : cfg.remove_duplicates
    · rw [if_pos hrd, remove_dup_eq_dedupGo]
      have hDkeys : (D.map sampleKey).Nodup := by
        rw [hD]
        unfold dedupStage
        rw [if_pos hrd, remove_dup_eq_dedupGo]
        exact dedupGo_keys_nodup E []
      have hOkeys : (O.map sampleKey).Nodup :=
        List.Nodup.sublist (hOD.map sampleKey) hDkeys
      exact dedupGo_eq_self O [] (by simp) hOkeys
    · rw [if_neg hrd]
  have h3 : minLenStage cfg O = O := by
    rcases hml : cfg.min_length with - | n
    · simp [minLenStage, hml]
    · simp only [minLenStage, hml]
      unfold filter_by_min_length
      by_cases hn : n ≤ 0
      · rw [if_pos hn]
      · rw [if_neg hn]
        apply List.filter_eq_self.mpr
        intro a ha
        have haM : a ∈ M := hOM.subset ha
        rw [hM] at haM
        simp only [minLenStage, hml] at haM
        unfold filter_by_min_length at haM
        rw [if_neg hn] at haM
        exact (List.mem_filter.mp haM).2
  have h4 : noiseStage cfg O = O := by
    unfold noiseStage
    by_cases hfn : cfg.filter_noise
    · rw [if_pos hfn]
      unfold filter_noise
      apply List.filter_eq_self.mpr
      intro a ha
      have haO : a ∈ O := ha
      rw [hO] at haO
      unfold noiseStage at haO
      rw [if_pos hfn] at haO
      unfold filter_noise at haO
      exact (List.mem_filter.mp haO).2
    · rw [if_neg hfn]
  rw [h1, h2, h3, h4]

/-! ## Canonical JSON serialization
(`json.dumps(..., sort_keys=True, ensure_ascii=False)` on a flat
string-valued dict, as used by `src/data/versioning.py`) -/

/-- Lowercase hexadecimal digit for a value below 16. -/
def hexDigitLower (n : Nat) : Char :=
  if n < 10 then Char.ofNat (48 + n) else Char.ofNat (87 + n)

/-- Python's JSON string escaping with `ensure_ascii=False`: escape the
backslash, the double quote, and control characters below U+0020 (five of
them by short escapes, the rest as `\u00XX`); all other characters are
emitted verbatim. -/
def jsonEscapeChar (c : Char) : List Char :=
  if c = '\\' then ['\\', '\\']
  else if c = '"' then ['\\', '"']
  else if c = '\x08' then ['\\', 'b']
  else if c = '\x0c' then ['\\', 'f']
  else if c = '\n' then ['\\', 'n']
  else if c = '\r' then ['\\', 'r']
  else if c = '\t' then ['\\', 't']
  else if c.toNat < 32 then
    ['\\', 'u', '0', '0', hexDigitLower (c.toNat / 16), hexDigitLower (c.toNat % 16)]
  else [c]

/-- A JSON string literal for `s`. -/
def jsonQuote (s : String) : String :=
  "\"" ++ String.mk (s.data.map jsonEscapeChar).flatten ++ "\""

/-- Python's `<` on `str`: lexicographic comparison on code points. -/
def pyStrLt : List Char → List Char → Bool
  | [], [] => false
  | [], _ :: _ => true
  | _ :: _, [] => false
  | a :: as, b :: bs =>
    if a.toNat < b.toNat then true
    else if b.toNat < a.toNat then false
    else pyStrLt as bs

/-- Insert a key-value pair into a key-sorted association list. -/
def insertSortedKV (kv : String × String) :
    List (String × String) → List (String × String)
  | [] => [kv]
  | x :: xs =>
    if pyStrLt kv.1.data x.1.data then kv :: x :: xs else x :: insertSortedKV kv xs

/-- `sorted(d.items())` for a string-valued dict (keys are unique). -/
def sortKVs (l : List (String × String)) : List (String × String) :=
  l.foldr insertSortedKV []

/-- `", ".join(parts)` — the default item separator of `json.dumps`. -/
def joinComma : List String → String
  | [] => ""
  | [x] => x
  | x :: xs => x ++ ", " ++ joinComma xs

/-- `json.dumps` of a flat string-valued object with `sort_keys=True`,
`ensure_ascii=False` and the default separators `", "` / `": "`. -/
def jsonDumpStrObj (fields : List (String × String)) : String :=
  "\x7b" ++ joinComma ((sortKVs fields).map fun kv =>
    jsonQuote kv.1 ++ ": " ++ jsonQuote kv.2) ++ "\x7d"

/-- `_sample_to_dict` from `src/data/versioning.py`:
`{"id": .., "input": .., "output": .., "source": ..}` as an item list. -/
def _sample_to_dict (s : Sample) : List (String × String) :=
  [("id", s.id), ("input", s.input), ("output", s.output), ("source", s.source)]

/-- UTF-8 encoding of one character (`str.encode("utf-8")`), as byte values. -/
def utf8EncodeChar (c : Char) : List Nat :=
  let n := c.toNat
  if n < 0x80 then [n]
  else if n < 0x800 then [0xc0 + n / 64, 0x80 + n % 64]
  else if n < 0x10000 then [0xe0 + n / 4096, 0x80 + n / 64 % 64, 0x80 + n % 64]
  else [0xf0 + n / 262144, 0x80 + n / 4096 % 64, 0x80 + n / 64 % 64, 0x80 + n % 64]

/-- UTF-8 byte sequence of a string. -/
def utf8Bytes (s : String) : List Nat := (s.data.map utf8EncodeChar).flatten

/-! ## SHA-256 over byte lists (`hashlib.sha256`) -/

/-- Truncation to a 32-bit word. -/
def w32 (n : Nat) : Nat := n % 2 ^ 32

/-- Right rotation of a 32-bit word (requires `0 < n < 32`, `x < 2 ^ 32`). -/
def rotr (x n : Nat) : Nat := w32 (x / 2 ^ n + x * 2 ^ (32 - n))

/-- Bitwise complement of a 32-bit word. -/
def bnot32 (a : Nat) : Nat := 2 ^ 32 - 1 - a

def smallSigma0 (x : Nat) : Nat := Nat.xor (Nat.xor (rotr x 7) (rotr x 18)) (x / 2 ^ 3)

def smallSigma1 (x : Nat) : Nat := Nat.xor (Nat.xor (rotr x 17) (rotr x 19)) (x / 2 ^ 10)

def bigSigma0 (x : Nat) : Nat := Nat.xor (Nat.xor (rotr x 2) (rotr x 13)) (rotr x 22)

def bigSigma1 (x : Nat) : Nat := Nat.xor (Nat.xor (rotr x 6) (rotr x 11)) (rotr x 25)

/-- The SHA-256 round constants (FIPS 180-4, in decimal). -/
def sha256K : List Nat :=
  [1116352408, 1899447441, 3049323471, 3921009573, 961987163,
   1508970993, 2453635748, 2870763221, 3624381080, 310598401,
   607225278, 1426881987, 1925078388, 2162078206, 2614888103,
   3248222580, 3835390401, 4022224774, 264347078, 604807628,
   770255983, 1249150122, 1555081692, 1996064986, 2554220882,
   2821834349, 2952996808, 3210313671, 3336571891, 3584528711,
   113926993, 338241895, 666307205, 773529912, 1294757372,
   1396182291, 1695183700, 1986661051, 2177026350, 2456956037,
   2730485921, 2820302411, 3259730800, 3345764771, 3516065817,
   3600352804, 4094571909, 275423344, 430227734, 506948616,
   659060556, 883997877, 958139571, 1322822218, 1537002063,
   1747873779, 1955562222, 2024104815, 2227730452, 2361852424,
   2428436474, 2756734187, 3204031479, 3329325298]

/-- The SHA-256 initial hash value (FIPS 180-4, in decimal). -/
def sha256H0 : List Nat :=
  [1779033703, 3144134277, 1013904242, 2773480762,
   1359893119, 2600822924, 528734635, 1541459225]

/-- `n` rendered as `k` big-endian bytes. -/
def beBytes (k : Nat) (n : Nat) : List Nat :=
  (List.range k).map fun i => n / 2 ^ (8 * (k - 1 - i)) % 256

/-- SHA-256 message padding: `0x80`, zeros, then the 64-bit big-endian bit
length, reaching a multiple of 64 bytes. -/
def sha256Pad (msg : List Nat) : List Nat :=
  msg ++ [0x80] ++ List.replicate ((64 - (msg.length + 9) % 64) % 64) 0
      ++ beBytes 8 (8 * msg.length)

/-- Split a byte list into 64-byte blocks. -/
def toBlocks (l : List Nat) : List (List Nat) :=
  if h : l = [] then []
  else l.take 64 :: toBlocks (l.drop 64)
termination_by l.length
decreasing_by
  simp only [List.length_drop]
  have := List.length_pos.mpr h
  omega

/-- Big-endian 32-bit words of a 64-byte block. -/
def blockWords (block : List Nat) : List Nat :=
  (List.range 16).map fun i =>
    block.getD (4 * i) 0 * 2 ^ 24 + block.getD (4 * i + 1) 0 * 2 ^ 16 +
    block.getD (4 * i + 2) 0 * 2 ^ 8 + block.getD (4 * i + 3) 0

/-- Extend the 16 block words to the 64-word message schedule. -/
def schedule (ws : List Nat) : List Nat :=
  (List.range 48).foldl
    (fun acc i =>
      acc ++ [w32 (smallSigma1 (acc.getD (i + 14) 0) + acc.getD (i + 9) 0 +
        smallSigma0 (acc.getD (i + 1) 0) + acc.getD i 0)])
    ws

/-- One round of the SHA-256 compression function. -/
def sha256Round (st : Nat × Nat × Nat × Nat × Nat × Nat × Nat × Nat)
    (kw : Nat × Nat) : Nat × Nat × Nat × Nat × Nat × Nat × Nat × Nat :=
  match st with
  | (a, b, c, d, e, f, g, h) =>
    let t1 := w32 (h + bigSigma1 e +
      Nat.xor (Nat.land e f) (Nat.land (bnot32 e) g) + kw.1 + kw.2)
    let t2 := w32 (bigSigma0 a +
      Nat.xor (Nat.xor (Nat.land a b) (Nat.land a c)) (Nat.land b c))
    (w32 (t1 + t2), a, b, c, w32 (d + t1), e, f, g)

/-- Process one 64-byte block of the SHA-256 state. -/
def sha256Compress (H : List Nat) (block : List Nat) : List Nat :=
  let ws := schedule (blockWords block)
  let init := (H.getD 0 0, H.getD 1 0, H.getD 2 0, H.getD 3 0,
               H.getD 4 0, H.getD 5 0, H.getD 6 0, H.getD 7 0)
  let r := (sha256K.zip ws).foldl sha256Round init
  [w32 (H.getD 0 0 + r.1), w32 (H.getD 1 0 + r.2.1), w32 (H.getD 2 0 + r.2.2.1),
   w32 (H.getD 3 0 + r.2.2.2.1), w32 (H.getD 4 0 + r.2.2.2.2.1),
   w32 (H.getD 5 0 + r.2.2.2.2.2.1), w32 (H.getD 6 0 + r.2.2.2.2.2.2.1),
   w32 (H.getD 7 0 + r.2.2.2.2.2.2.2)]

/-- SHA-256 digest of a byte list, as eight 32-bit words. -/
def sha256Words (msg : List Nat) : List Nat :=
  (toBlocks (sha256Pad msg)).foldl sha256Compress sha256H0

/-- Eight lowercase hex characters of a word, most significant first. -/
def wordHex (w : Nat) : List Char :=
  (List.range 8).map fun i => hexDigitLower (w / 16 ^ (7 - i) % 16)

/-- Lowercase hexadecimal SHA-256 digest of a byte list. -/
def sha256HexDigest (msg : List Nat) : String :=
  String.mk ((sha256Words msg).map wordHex).flatten

/-! ## Versioning (`src/data/versioning.py`) -/

/-- The `hashlib.sha256()` object is modelled by the byte sequence absorbed
so far; `update` appends bytes. -/
def hasherUpdate (st : List Nat) (bytes : List Nat) : List Nat := st ++ bytes

/-- `hexdigest()` hashes the accumulated bytes. -/
def hasherHexdigest (st : List Nat) : String := sha256HexDigest st

/-- `compute_dataset_hash` from `src/data/versioning.py`: fold
`hasher.update((json.dumps(_sample_to_dict(s), sort_keys=True,
ensure_ascii=False) + "\n").encode("utf-8"))` over the samples, then
`hasher.hexdigest()`. -/
def compute_dataset_hash (samples : List Sample) : String :=
  hasherHexdigest
    (samples.foldl
      (fun h s => hasherUpdate h (utf8Bytes (jsonDumpStrObj (_sample_to_dict s) ++ "\n")))
      [])

/-- The pure content of the artifacts `create_dataset_version` writes: the
version directory path, the full text of `data.jsonl`, and the fields of
the `metadata.json` record (`config` is stored untouched, hence a type
parameter). -/
structure VersionArtifact (κ : Type) where
  dirPath : String
  dataFile : String
  metadata_dataset_version : String
  metadata_num_samples : Nat
  metadata_config : κ
  metadata_dataset_hash : String

/-- `create_dataset_version` from `src/data/versioning.py`: write one
serialized line per sample to `data.jsonl`, then the metadata record. -/
def create_dataset_version {κ : Type} (samples : List Sample) (version_name : String)
    (config : κ) (output_dir : String := "artifacts/datasets") : VersionArtifact κ where
  dirPath := output_dir ++ "/" ++ version_name
  dataFile := String.join (samples.map fun s => jsonDumpStrObj (_sample_to_dict s) ++ "\n")
  metadata_dataset_version := version_name
  metadata_num_samples := samples.length
  metadata_config := config
  metadata_dataset_hash := compute_dataset_hash samples

/-! ## Lemmas about hashing and serialization -/

theorem string_eq_of_data {s t : String} (h : s.data = t.data) : s = t := by
  cases s; cases t; exact congrArg String.mk h

theorem string_data_append (s t : String) : (s ++ t).data = s.data ++ t.data := rfl

/-- The spec §4.4 canonical serialized line of one sample: the four fields
as a JSON object whose keys appear in lexicographic order
(`"id" < "input" < "output" < "source"`), followed by a line terminator. -/
def specCanonicalLine (s : Sample) : String :=
  "\x7b" ++ jsonQuote "id" ++ ": " ++ jsonQuote s.id ++
  ", " ++ jsonQuote "input" ++ ": " ++ jsonQuote s.input ++
  ", " ++ jsonQuote "output" ++ ": " ++ jsonQuote s.output ++
  ", " ++ jsonQuote "source" ++ ": " ++ jsonQuote s.source ++ "\x7d" ++ "\n"

/-- The `(id, input, output, source)` field tuple of a sample. -/
def fieldTuple (s : Sample) : String × String × String × String :=
  (s.id, s.input, s.output, s.source)

theorem sortKVs_sample (s : Sample) :
    sortKVs (_sample_to_dict s)
      = [("id", s.id), ("input", s.input), ("output", s.output), ("source", s.source)] := rfl

theorem dump_sample_eq_canonical (s : Sample) :
    jsonDumpStrObj (_sample_to_dict s) ++ "\n" = specCanonicalLine s := by
  apply string_eq_of_data
  simp only [jsonDumpStrObj, sortKVs_sample, List.map_cons, List.map_nil, joinComma,
    specCanonicalLine, string_data_append, List.append_assoc]

theorem foldl_update_flatten (f : Sample → List Nat) (l : List Sample) (acc : List Nat) :
    l.foldl (fun h s => hasherUpdate h (f s)) acc = acc ++ (l.map f).flatten := by
  induction l generalizing acc with
  | nil => simp
  | cons s rest ih =>
    rw [List.foldl_cons, ih]
    simp [hasherUpdate, List.append_assoc]

theorem compute_dataset_hash_eq_flatten (samples : List Sample) :
    compute_dataset_hash samples
      = sha256HexDigest (samples.map fun s =>
          utf8Bytes (jsonDumpStrObj (_sample_to_dict s) ++ "\n")).flatten := by
  unfold compute_dataset_hash hasherHexdigest
  rw [foldl_update_flatten]
  simp

theorem sha256Compress_length (H block : List Nat) :
    (sha256Compress H block).length = 8 := rfl

theorem foldl_compress_length (blocks : List (List Nat)) (H : List Nat)
    (h : H.length = 8) : (blocks.foldl sha256Compress H).length = 8 := by
  induction blocks generalizing H with
  | nil => simpa
  | cons b rest ih => exact ih _ (sha256Compress_length _ _)

theorem sha256Words_length (msg : List Nat) : (sha256Words msg).length = 8 :=
  foldl_compress_length _ _ rfl

theorem wordHex_length (w : Nat) : (wordHex w).length = 8 := by
  simp [wordHex]

theorem sha256HexDigest_length (msg : List Nat) :
    (sha256HexDigest msg).length = 64 := by
  show ((sha256Words msg).map wordHex).flatten.length = 64
  rw [List.length_flatten, List.map_map]
  have : (List.length ∘ wordHex) = fun _ => 8 := by
    funext w; exact wordHex_length w
  rw [this, List.map_const', List.sum_replicate, sha256Words_length, smul_eq_mul]

/-- Lowercase hexadecimal characters. -/
def isHexLowerChar (c : Char) : Bool :=
  (decide ('0' ≤ c) && decide (c ≤ '9')) || (decide ('a' ≤ c) && decide (c ≤ 'f'))

theorem hexDigitLower_isHexLower (n : Nat) (h : n < 16) :
    isHexLowerChar (hexDigitLower n) = true := by
  interval_cases n <;> decide

theorem sha256HexDigest_chars (msg : List Nat) :
    ∀ c ∈ (sha256HexDigest msg).data, isHexLowerChar c = true := by
  intro c hc
  have hc' : c ∈ ((sha256Words msg).map wordHex).flatten := hc
  obtain ⟨l, hl, hcl⟩ := List.mem_flatten.mp hc'
  obtain ⟨w, _, rfl⟩ := List.mem_map.mp hl
  obtain ⟨i, _, rfl⟩ := List.mem_map.mp hcl
  exact hexDigitLower_isHexLower _ (Nat.mod_lt _ (by norm_num))

/-! ## Claims about versioning -/

/-- C1: `compute_dataset_hash` equals the lowercase-hex SHA-256 digest of
the concatenation, in sequence order, of the UTF-8 bytes of each sample's
canonical serialization (keys in lexicographic order, then a newline), and
it is a pure function of the ordered `(id, input, output, source)` tuples:
field-wise-equal lists in the same order yield identical digests. -/
theorem compute_dataset_hash_canonical (samples : List Sample) :
    compute_dataset_hash samples
      = sha256HexDigest (samples.map fun s => utf8Bytes (specCanonicalLine s)).flatten ∧
    ∀ samples₂ : List Sample,
      samples.map fieldTuple = samples₂.map fieldTuple →
        compute_dataset_hash samples = compute_dataset_hash samples₂ := by
  constructor
  · rw [compute_dataset_hash_eq_flatten]
    have hmap : (samples.map fun s => utf8Bytes (jsonDumpStrObj (_sample_to_dict s) ++ "\n"))
        = samples.map fun s => utf8Bytes (specCanonicalLine s) := by
      apply List.map_congr_left
      intro s _
      rw [dump_sample_eq_canonical]
    rw [hmap]
  · intro samples₂ htuple
    have hline : ∀ l : List Sample,
        (l.map fun s => utf8Bytes (jsonDumpStrObj (_sample_to_dict s) ++ "\n"))
          = l.map ((fun t : String × String × String × String =>
              utf8Bytes (jsonDumpStrObj
                [("id", t.1), ("input", t.2.1), ("output", t.2.2.1),
                 ("source", t.2.2.2)] ++ "\n")) ∘ fieldTuple) := by
      intro l
      apply List.map_congr_left
      intro s _
      simp [Function.comp, fieldTuple, _sample_to_dict]
    rw [compute_dataset_hash_eq_flatten, compute_dataset_hash_eq_flatten,
      hline samples, hline samples₂, ← List.map_map, ← List.map_map, htuple]

/-- A concrete sample for witnesses (the spec §8 end-to-end example). -/
def demoSample : Sample := ⟨"test_0", "Hello", "Hi there", "test"⟩

theorem compute_dataset_hash_canonical_witness :
    [demoSample].map fieldTuple = [⟨"test_0", "Hello", "Hi there", "test"⟩].map fieldTuple ∧
    compute_dataset_hash [demoSample]
      = compute_dataset_hash [⟨"test_0", "Hello", "Hi there", "test"⟩] :=
  ⟨rfl, (compute_dataset_hash_canonical [demoSample]).2
    [⟨"test_0", "Hello", "Hi there", "test"⟩] rfl⟩

/-- C2: `create_dataset_version` writes exactly `samples.length` lines,
each the JSON serialization of a four-field `{id, input, output, source}`
object; the metadata's `num_samples` equals the count and its
`dataset_hash` is the 64-character lowercase-hex string
`compute_dataset_hash` returns on the same list. -/
theorem create_dataset_version_spec {κ : Type} (samples : List Sample)
    (version_name : String) (config : κ) (output_dir : String) :
    (create_dataset_version samples version_name config output_dir).dataFile
        = String.join ((samples.map fun s => jsonDumpStrObj (_sample_to_dict s)).map
            fun line => line ++ "\n") ∧
    (samples.map fun s => jsonDumpStrObj (_sample_to_dict s)).length = samples.length ∧
    (∀ line ∈ samples.map fun s => jsonDumpStrObj (_sample_to_dict s),
      ∃ v₁ v₂ v₃ v₄, line = jsonDumpStrObj
        [("id", v₁), ("input", v₂), ("output", v₃), ("source", v₄)]) ∧
    (create_dataset_version samples version_name config output_dir).metadata_num_samples
        = samples.length ∧
    (create_dataset_version samples version_name config output_dir).metadata_dataset_hash
        = compute_dataset_hash samples ∧
    (compute_dataset_hash samples).length = 64 ∧
    ∀ c ∈ (compute_dataset_hash samples).data, isHexLowerChar c = true := by
  refine ⟨?_, List.length_map _ _, ?_, rfl, rfl, ?_, ?_⟩
  · simp [create_dataset_version, List.map_map, Function.comp_def]
  · intro line hline
    obtain ⟨s, _, rfl⟩ := List.mem_map.mp hline
    exact ⟨s.id, s.input, s.output, s.source, rfl⟩
  · rw [compute_dataset_hash_eq_flatten]
    exact sha256HexDigest_length _
  · intro c hc
    rw [compute_dataset_hash_eq_flatten] at hc
    exact sha256HexDigest_chars _ c hc

theorem create_dataset_version_spec_witness :
    (create_dataset_version [demoSample] "v1" (0 : Nat) "artifacts/datasets").metadata_num_samples
        = [demoSample].length ∧
    (compute_dataset_hash [demoSample]).length = 64 :=
  ⟨(create_dataset_version_spec [demoSample] "v1" (0 : Nat) "artifacts/datasets").2.2.2.1,
   (create_dataset_version_spec [demoSample] "v1" (0 : Nat) "artifacts/datasets").2.2.2.2.2.1⟩

/-! ## CSV ingestion (`_load_csv` in `src/data/ingestion.py`)

The loader is embedded from the point after `csv.DictReader` has parsed
the file: `fieldnames` is the header row and `rows` the remaining records
(as raw cell lists; `DictReader` represents a missing trailing cell as
`None`, i.e. an out-of-range index here). -/

/-- Errors raised by `_load_csv`. -/
inductive CsvError where
  /-- `fieldnames[1] if len(fieldnames) > 1 else fieldnames[0]` evaluates
  `fieldnames[0]` on an empty header (Python evaluates the fallback of
  `key_lower.get("output", ...)` eagerly). -/
  | indexError
  /-- `ValueError("CSV must have 'input' and 'output' columns or at least
  two columns")`, reached when a resolved column name is empty. -/
  | valueError
deriving DecidableEq, Repr

/-- Python `str.lower()` (the header names use ASCII case mapping). -/
def pyLower (s : String) : String := String.mk (s.data.map Char.toLower)

/-- `{f.lower(): f for f in fieldnames}.get(k)`: the last duplicate wins in
a dict comprehension. -/
def keyLowerGet (fieldnames : List String) (k : String) : Option String :=
  fieldnames.reverse.find? fun f => pyLower f == k

/-- The resolved input column: case-insensitive match on `input`, else the
first header name (`""` for an empty header). -/
def csvInputCol (fieldnames : List String) : String :=
  (keyLowerGet fieldnames "input").getD (fieldnames.headD "")

/-- The resolved output column: case-insensitive match on `output`, else
the second header name when at least two exist, else the first. -/
def csvOutputCol (fieldnames : List String) : String :=
  (keyLowerGet fieldnames "output").getD
    (if fieldnames.length > 1 then fieldnames.getD 1 "" else fieldnames.headD "")

/-- The last position of `col` in `fieldnames` (later duplicates overwrite
earlier ones in the `DictReader` row dict). -/
def lastKeyIdx (fieldnames : List String) (col : String) : Option Nat :=
  (fieldnames.reverse.findIdx? fun f => f == col).map
    fun k => fieldnames.length - 1 - k

/-- `row.get(col, "")` on a `DictReader` row followed by the source's
`None -> ""` normalization: a cell missing because the record is short is
`restval=None`, hence `""`. -/
def csvCell (fieldnames : List String) (row : List String) (col : String) : String :=
  match lastKeyIdx fieldnames col with
  | some j => (row.get? j).getD ""
  | _ => ""

/-- `_load_csv` from `src/data/ingestion.py`: empty record list short-cuts
to `[]`; the eagerly evaluated output-column fallback raises `IndexError`
on an empty header; an empty resolved column name raises `ValueError`;
otherwise each record becomes a sample with id `"<source>_<i>"`.
(`input_col` cannot fail to evaluate, so computing it after the
output-fallback check is observationally the Python order.) -/
def _load_csv (fieldnames : List String) (rows : List (List String)) (source : String) :
    Except CsvError (List Sample) :=
  if rows.isEmpty then Except.ok []
  else
    match (if fieldnames.length > 1 then fieldnames[1]? else fieldnames.head?) with
    | Option.none => Except.error CsvError.indexError
    | some _ =>
      let input_col := csvInputCol fieldnames
      let output_col := csvOutputCol fieldnames
      if input_col.isEmpty || output_col.isEmpty then Except.error CsvError.valueError
      else Except.ok (rows.enum.map fun p =>
        { id := source ++ "_" ++ toString p.1
          input := csvCell fieldnames p.2 input_col
          output := csvCell fieldnames p.2 output_col
          source := source })

/-! ## Python/JSON values (for the registry and the pipeline config) -/

/-- A Python value as produced by `yaml.safe_load` or `json.load`. `date`
stands for the `datetime.date`/`datetime.datetime` objects PyYAML builds
for unquoted ISO dates — valid YAML, but rejected by `json.dump`. -/
inductive PyValue where
  | none
  | bool (b : Bool)
  | int (n : Int)
  | str (s : String)
  | list (xs : List PyValue)
  | dict (kvs : List (String × PyValue))
  | date (y m d : Nat)

/-- Lookup in a Python dict (keys are unique, so first match). -/
def dictFind (kvs : List (String × PyValue)) (k : String) : Option PyValue :=
  (kvs.find? fun kv => kv.1 == k).map fun kv => kv.2

/-- `d.get(k, dflt)`. -/
def dictGetD (kvs : List (String × PyValue)) (k : String) (dflt : PyValue) : PyValue :=
  (dictFind kvs k).getD dflt

/-- Python truthiness of a value. -/
def truthy : PyValue → Bool
  | PyValue.none => false
  | PyValue.bool b => b
  | PyValue.int n => decide (n ≠ 0)
  | PyValue.str s => !s.isEmpty
  | PyValue.list xs => !xs.isEmpty
  | PyValue.dict kvs => !kvs.isEmpty
  | PyValue.date _ _ _ => true

mutual

/-- Whether `json.dump` accepts the value: `datetime.date` (and kin) raise
`TypeError: Object of type date is not JSON serializable`. -/
def jsonSerializable : PyValue → Bool
  | PyValue.none => true
  | PyValue.bool _ => true
  | PyValue.int _ => true
  | PyValue.str _ => true
  | PyValue.list xs => jsonSerializableList xs
  | PyValue.dict kvs => jsonSerializableKVs kvs
  | PyValue.date _ _ _ => false

def jsonSerializableList : List PyValue → Bool
  | [] => true
  | x :: xs => jsonSerializable x && jsonSerializableList xs

def jsonSerializableKVs : List (String × PyValue) → Bool
  | [] => true
  | kv :: kvs => jsonSerializable kv.2 && jsonSerializableKVs kvs

end

/-! ## Model registry (`src/training/registry.py`) -/

/-- The on-disk state of the registry file. -/
inductive RegistryFile where
  | absent
  | invalidJson
  | parsed (v : PyValue)

/-- The error `json.load` raises on a file that is not valid JSON. -/
inductive RegistryError where
  | jsonDecodeError
deriving DecidableEq, Repr

/-- `_load_registry`: a missing file yields `{"models": []}`; an existing
file is `json.load`ed — malformed JSON raises `json.JSONDecodeError` —
and a parsed value that is not a dict holding a list under `"models"` is
replaced by `{"models": []}`. -/
def _load_registry (file : RegistryFile) : Except RegistryError PyValue :=
  match file with
  | RegistryFile.absent => Except.ok (PyValue.dict [("models", PyValue.list [])])
  | RegistryFile.invalidJson => Except.error RegistryError.jsonDecodeError
  | RegistryFile.parsed v =>
    match v with
    | PyValue.dict kvs =>
      match dictFind kvs "models" with
      | some (PyValue.list _) => Except.ok v
      | _ => Except.ok (PyValue.dict [("models", PyValue.list [])])
    | _ => Except.ok (PyValue.dict [("models", PyValue.list [])])

/-- `data["models"].append(model_metadata)` on a loaded registry value. -/
def appendModel (v : PyValue) (md : PyValue) : PyValue :=
  match v with
  | PyValue.dict kvs => PyValue.dict (kvs.map fun kv =>
      if kv.1 == "models" then
        (kv.1, match kv.2 with
          | PyValue.list xs => PyValue.list (xs ++ [md])
          | other => other)
      else kv)
  | other => other

/-- `register_model`: load, append, save; the result is the registry value
saved back to disk (the write itself always succeeds in the model). -/
def register_model (md : PyValue) (file : RegistryFile) :
    Except RegistryError PyValue :=
  (_load_registry file).map fun data => appendModel data md

/-- `list_models`: the `"models"` list of the loaded registry. -/
def list_models (file : RegistryFile) : Except RegistryError (List PyValue) :=
  (_load_registry file).map fun data =>
    match data with
    | PyValue.dict kvs =>
      match dictFind kvs "models" with
      | some (PyValue.list xs) => xs
      | _ => []
    | _ => []

/-! ## Pipeline orchestrator (`src/data/pipeline.py`) -/

/-- The on-disk state of the YAML config file. -/
inductive ConfigFile where
  | absent
  | malformedYaml
  | parsed (v : PyValue)

/-- Errors the orchestrator raises. -/
inductive PipelineError where
  /-- `FileNotFoundError` from `_load_yaml_config`. -/
  | fileNotFound
  /-- `yaml.YAMLError` from `yaml.safe_load`. -/
  | yamlError
  /-- `ValueError("Config must be a YAML object (dict)")`. -/
  | configNotDict
  /-- `KeyError` from `config[k]` on a missing required key. -/
  | keyError (k : String)
  /-- Any error propagating out of `ingestion.load_dataset`. -/
  | ingestError
  /-- `TypeError`: a filter value of the wrong type, a non-string
  path-like value, or `json.dump` on a non-serializable value. -/
  | typeError
deriving DecidableEq, Repr

/-- Filesystem writes a pipeline run performs, in order. -/
inductive WriteEvent where
  | mkdirVersionDir (path : String)
  | writeDataFile (path : String) (content : String)
  /-- `open(metadata_path, "w")` truncates the file before `json.dump`
  can fail. -/
  | openMetadataFile (path : String)
  | writeMetadataFile (path : String)
deriving DecidableEq, Repr

/-- The string value of a path-like config entry (`Path(...)` and string
concatenation raise `TypeError` on non-string values). -/
def asStr : PyValue → Option String
  | PyValue.str s => some s
  | _ => Option.none

/-- The integer value of a config entry (a Python `bool` is an `int`). -/
def asInt : PyValue → Option Int
  | PyValue.int n => some n
  | PyValue.bool b => some (if b then 1 else 0)
  | _ => Option.none

/-- `config[k]`: `KeyError` when the key is missing. -/
def requiredKey (kvs : List (String × PyValue)) (k : String) :
    Except PipelineError PyValue :=
  match dictFind kvs k with
  | some v => Except.ok v
  | Option.none => Except.error (PipelineError.keyError k)

/-- The filter-relevant projection of the config built by
`build_dataset_from_config` and consumed by `clean_and_filter` (spec §6
types `min_length`/`noise_max_repeat` as integers; a non-integer value
would raise `TypeError` at the length comparison). -/
def toFilterConfig (kvs : List (String × PyValue)) :
    Except PipelineError FilterConfig := do
  let ml ← match dictFind kvs "min_length" with
    | some v =>
      match asInt v with
      | some n => pure (some n)
      | _ => Except.error PipelineError.typeError
    | _ => pure Option.none
  let fn := truthy (dictGetD kvs "filter_noise" PyValue.none)
  let nmr ← match (if fn then dictFind kvs "noise_max_repeat" else Option.none) with
    | some v =>
      match asInt v with
      | some n => pure (some n)
      | _ => Except.error PipelineError.typeError
    | _ => pure Option.none
  pure { remove_duplicates := truthy (dictGetD kvs "remove_duplicates" (PyValue.bool false))
         min_length := ml
         filter_noise := fn
         noise_max_repeat := nmr }

/-- The metadata value `create_dataset_version` passes to `json.dump`. -/
def metadataValue (version_name : String) (n : Nat) (config : PyValue)
    (hash : String) : PyValue :=
  PyValue.dict
    [("dataset_version", PyValue.str version_name), ("num_samples", PyValue.int n),
     ("config", config), ("dataset_hash", PyValue.str hash)]

/-- `create_dataset_version` with its filesystem effects: mkdir, write
`data.jsonl`, open `metadata.json` (truncating it), then `json.dump` the
metadata — which raises `TypeError` when `config` holds a value JSON
cannot encode (e.g. a YAML-parsed date), after `data.jsonl` was already
written. -/
def create_dataset_version_effects (samples : List Sample) (version_name : String)
    (config : PyValue) (output_dir : String) :
    List WriteEvent × Except PipelineError String :=
  let vpath := output_dir ++ "/" ++ version_name
  let dataContent := String.join (samples.map fun s =>
    jsonDumpStrObj (_sample_to_dict s) ++ "\n")
  let writes := [WriteEvent.mkdirVersionDir vpath,
                 WriteEvent.writeDataFile (vpath ++ "/data.jsonl") dataContent,
                 WriteEvent.openMetadataFile (vpath ++ "/metadata.json")]
  if jsonSerializable (metadataValue version_name samples.length config
      (compute_dataset_hash samples)) then
    (writes ++ [WriteEvent.writeMetadataFile (vpath ++ "/metadata.json")],
      Except.ok vpath)
  else (writes, Except.error PipelineError.typeError)

/-- `build_dataset_from_config` from `src/data/pipeline.py`: load the YAML
config (fail on a missing or malformed file or a non-dict document),
require `input_path` and `source`, ingest — the outcome of
`ingestion.load_dataset` on the configured input file is abstracted as the
`ingest` argument — build the filter config, clean and filter, require
`version_name`, read `output_dir` (default `"artifacts/datasets"`), then
write the version.  The result pairs the writes performed with the
outcome. -/
def build_dataset_from_config (configFile : ConfigFile)
    (ingest : Except PipelineError (List Sample)) :
    List WriteEvent × Except PipelineError String :=
  match configFile with
  | ConfigFile.absent => ([], Except.error PipelineError.fileNotFound)
  | ConfigFile.malformedYaml => ([], Except.error PipelineError.yamlError)
  | ConfigFile.parsed v =>
    match v with
    | PyValue.dict kvs =>
      (match requiredKey kvs "input_path" with
      | Except.error e => ([], Except.error e)
      | Except.ok _ =>
        match requiredKey kvs "source" with
        | Except.error e => ([], Except.error e)
        | Except.ok _ =>
          match ingest with
          | Except.error e => ([], Except.error e)
          | Except.ok samples =>
            match toFilterConfig kvs with
            | Except.error e => ([], Except.error e)
            | Except.ok fcfg =>
              let filtered := clean_and_filter samples fcfg
              match requiredKey kvs "version_name" with
              | Except.error e => ([], Except.error e)
              | Except.ok vn =>
                match asStr vn with
                | some version_name =>
                  (match dictFind kvs "output_dir" with
                  | some w =>
                    (match asStr w with
                    | some output_dir =>
                      create_dataset_version_effects filtered version_name v output_dir
                    | Option.none => ([], Except.error PipelineError.typeError))
                  | Option.none =>
                    create_dataset_version_effects filtered version_name v
                      "artifacts/datasets")
                | Option.none => ([], Except.error PipelineError.typeError))
    | _ => ([], Except.error PipelineError.configNotDict)

/-! ## Claims about CSV loading -/

/-- C3 counterexample: a CSV with a single usable column (header `a`) and
one data row.  The claim requires a failure with fewer than two usable
columns, but the loader succeeds, reading both input and output from that
single column. -/
theorem load_csv_single_column_ok :
    _load_csv ["a"] [["x"]] "s"
      = Except.ok [{ id := "s_0", input := "x", output := "x", source := "s" }] := by
  rfl

/-- C3 (amended): an empty record list yields `[]` without validation;
records with an empty header raise `IndexError`; otherwise the input
column is a case-insensitive match on `input` falling back to the first
header name and the output column a case-insensitive match on `output`
falling back to the second header name when at least two exist (else the
first), and the loader fails (`ValueError`) exactly when a resolved column
name is the empty string — one non-empty column does NOT fail but serves
as both input and output; missing cell values default to `""`. -/
theorem load_csv_spec (fieldnames : List String) (rows : List (List String))
    (source : String) :
    (rows = [] → _load_csv fieldnames rows source = Except.ok []) ∧
    (rows ≠ [] → fieldnames = [] →
      _load_csv fieldnames rows source = Except.error CsvError.indexError) ∧
    (rows ≠ [] → fieldnames ≠ [] →
      ((csvInputCol fieldnames = "" ∨ csvOutputCol fieldnames = "") →
        _load_csv fieldnames rows source = Except.error CsvError.valueError) ∧
      (csvInputCol fieldnames ≠ "" → csvOutputCol fieldnames ≠ "" →
        _load_csv fieldnames rows source = Except.ok (rows.enum.map fun p =>
          { id := source ++ "_" ++ toString p.1
            input := csvCell fieldnames p.2 (csvInputCol fieldnames)
            output := csvCell fieldnames p.2 (csvOutputCol fieldnames)
            source := source }))) ∧
    (∀ k, (∀ f ∈ fieldnames, pyLower f ≠ k) → keyLowerGet fieldnames k = Option.none) ∧
    (∀ k f, keyLowerGet fieldnames k = some f → f ∈ fieldnames ∧ pyLower f = k) ∧
    (∀ row col j, lastKeyIdx fieldnames col = some j → row.length ≤ j →
      csvCell fieldnames row col = "") := by
  refine ⟨?_, ?_, ?_, ?_, ?_, ?_⟩
  · intro h
    subst h
    rfl
  · intro hr hf
    subst hf
    have hne : rows.isEmpty = false := by
      cases rows
      · exact absurd rfl hr
      · rfl
    simp [_load_csv, hne]
  · intro hr hf
    have hne : rows.isEmpty = false := by
      cases rows
      · exact absurd rfl hr
      · rfl
    have hsome : (if fieldnames.length > 1 then fieldnames[1]? else fieldnames.head?).isSome := by
      cases fieldnames with
      | nil => exact absurd rfl hf
      | cons a tl =>
        cases tl with
        | nil => simp
        | cons b tl2 => simp
    obtain ⟨d, hd⟩ := Option.isSome_iff_exists.mp hsome
    constructor
    · intro hcol
      have hcond : ((csvInputCol fieldnames).isEmpty
          || (csvOutputCol fieldnames).isEmpty) = true := by
        rcases hcol with h | h <;> simp [String.isEmpty_iff, h]
      simp [_load_csv, hne, hd, hcond]
    · intro h1 h2
      have hi : (csvInputCol fieldnames).isEmpty = false :=
        Bool.eq_false_iff.mpr fun htrue => h1 ((String.isEmpty_iff _).mp htrue)
      have ho : (csvOutputCol fieldnames).isEmpty = false :=
        Bool.eq_false_iff.mpr fun htrue => h2 ((String.isEmpty_iff _).mp htrue)
      simp [_load_csv, hne, hd, hi, ho]
  · intro k hk
    unfold keyLowerGet
    rw [List.find?_eq_none]
    intro f hf
    simp only [beq_iff_eq]
    exact hk f (List.mem_reverse.mp hf)
  · intro k f hf
    unfold keyLowerGet at hf
    refine ⟨List.mem_reverse.mp (List.mem_of_find?_eq_some hf), ?_⟩
    have := List.find?_some hf
    simpa [beq_iff_eq] using this
  · intro row col j hj hlen
    unfold csvCell
    rw [hj]
    show (row.get? j).getD "" = ""
    have hnone : row.get? j = Option.none := List.get?_eq_none.mpr hlen
    rw [hnone]
    rfl

theorem load_csv_spec_witness :
    ([["a"]] : List (List String)) ≠ [] ∧ (["Input", "Output"] : List String) ≠ [] ∧
    csvInputCol ["Input", "Output"] ≠ "" ∧ csvOutputCol ["Input", "Output"] ≠ "" ∧
    _load_csv ["Input", "Output"] [["a"]] "s"
      = Except.ok (([["a"]] : List (List String)).enum.map fun p =>
          { id := "s" ++ "_" ++ toString p.1
            input := csvCell ["Input", "Output"] p.2 (csvInputCol ["Input", "Output"])
            output := csvCell ["Input", "Output"] p.2 (csvOutputCol ["Input", "Output"])
            source := "s" }) :=
  ⟨by decide, by decide, by decide, by decide,
   ((load_csv_spec ["Input", "Output"] [["a"]] "s").2.2.1
      (by decide) (by decide)).2 (by decide) (by decide)⟩

/-! ## Claims about the registry -/

/-- The parsed registry value is not a dict holding a list under
`"models"` (the shapes `_load_registry` replaces by the empty registry). -/
def notModelsShape (v : PyValue) : Prop :=
  ∀ kvs xs, v = PyValue.dict kvs → dictFind kvs "models" ≠ some (PyValue.list xs)

theorem load_registry_default (kvs : List (String × PyValue))
    (h : ∀ xs, dictFind kvs "models" ≠ some (PyValue.list xs)) :
    _load_registry (RegistryFile.parsed (PyValue.dict kvs))
      = Except.ok (PyValue.dict [("models", PyValue.list [])]) := by
  cases hfind : dictFind kvs "models" with
  | none => simp only [_load_registry, hfind]
  | some w =>
    cases w with
    | list xs => exact absurd hfind (h xs)
    | none => simp only [_load_registry, hfind]
    | bool b => simp only [_load_registry, hfind]
    | int n => simp only [_load_registry, hfind]
    | str s => simp only [_load_registry, hfind]
    | dict kvs2 => simp only [_load_registry, hfind]
    | date y m d => simp only [_load_registry, hfind]

/-- C5 counterexample: a registry file that exists but is not valid JSON
makes `json.load` raise `json.JSONDecodeError` — `register_model` and
`list_models` fail instead of treating the file as an empty registry. -/
theorem registry_invalid_json_raises :
    list_models RegistryFile.invalidJson
        = Except.error RegistryError.jsonDecodeError ∧
    register_model (PyValue.dict []) RegistryFile.invalidJson
        = Except.error RegistryError.jsonDecodeError :=
  ⟨rfl, rfl⟩

/-- C5 (amended): an absent registry file, or a JSON-parsable file whose
content is not a dict holding a list under `"models"`, is treated as the
empty registry — `list_models` returns `[]` and `register_model` succeeds,
saving `{"models": [md]}` — but a registry file that is not valid JSON
raises `json.JSONDecodeError` from `json.load`, which propagates. -/
theorem registry_empty_default (md : PyValue) :
    (list_models RegistryFile.absent = Except.ok [] ∧
     register_model md RegistryFile.absent
       = Except.ok (PyValue.dict [("models", PyValue.list [md])])) ∧
    (∀ v : PyValue, notModelsShape v →
      list_models (RegistryFile.parsed v) = Except.ok [] ∧
      register_model md (RegistryFile.parsed v)
        = Except.ok (PyValue.dict [("models", PyValue.list [md])])) ∧
    (list_models RegistryFile.invalidJson
        = Except.error RegistryError.jsonDecodeError ∧
     register_model md RegistryFile.invalidJson
        = Except.error RegistryError.jsonDecodeError) := by
  refine ⟨⟨rfl, rfl⟩, ?_, rfl, rfl⟩
  intro v hv
  cases v with
  | dict kvs =>
    have hld := load_registry_default kvs (fun xs => hv kvs xs rfl)
    constructor
    · unfold list_models
      rw [hld]
      rfl
    · unfold register_model
      rw [hld]
      rfl
  | none => exact ⟨rfl, rfl⟩
  | bool b => exact ⟨rfl, rfl⟩
  | int n => exact ⟨rfl, rfl⟩
  | str s => exact ⟨rfl, rfl⟩
  | list xs => exact ⟨rfl, rfl⟩
  | date y m d => exact ⟨rfl, rfl⟩

theorem registry_empty_default_witness :
    notModelsShape (PyValue.int 3) ∧
    list_models (RegistryFile.parsed (PyValue.int 3)) = Except.ok [] ∧
    register_model (PyValue.str "m") (RegistryFile.parsed (PyValue.int 3))
      = Except.ok (PyValue.dict [("models", PyValue.list [PyValue.str "m"])]) :=
  ⟨fun kvs xs h => PyValue.noConfusion h,
   ((registry_empty_default (PyValue.str "m")).2.1 (PyValue.int 3)
      (fun kvs xs h => PyValue.noConfusion h)).1,
   ((registry_empty_default (PyValue.str "m")).2.1 (PyValue.int 3)
      (fun kvs xs h => PyValue.noConfusion h)).2⟩

/-! ## Claims about the orchestrator -/

theorem create_dataset_version_effects_cases (s : List Sample) (vn : String)
    (c : PyValue) (od : String) :
    (jsonSerializable (metadataValue vn s.length c (compute_dataset_hash s)) = true ∧
     create_dataset_version_effects s vn c od
        = ([WriteEvent.mkdirVersionDir (od ++ "/" ++ vn),
            WriteEvent.writeDataFile (od ++ "/" ++ vn ++ "/data.jsonl")
              (String.join (s.map fun t => jsonDumpStrObj (_sample_to_dict t) ++ "\n")),
            WriteEvent.openMetadataFile (od ++ "/" ++ vn ++ "/metadata.json"),
            WriteEvent.writeMetadataFile (od ++ "/" ++ vn ++ "/metadata.json")],
           Except.ok (od ++ "/" ++ vn))) ∨
    (jsonSerializable (metadataValue vn s.length c (compute_dataset_hash s)) = false ∧
     create_dataset_version_effects s vn c od
        = ([WriteEvent.mkdirVersionDir (od ++ "/" ++ vn),
            WriteEvent.writeDataFile (od ++ "/" ++ vn ++ "/data.jsonl")
              (String.join (s.map fun t => jsonDumpStrObj (_sample_to_dict t) ++ "\n")),
            WriteEvent.openMetadataFile (od ++ "/" ++ vn ++ "/metadata.json")],
           Except.error PipelineError.typeError)) := by
  unfold create_dataset_version_effects
  by_cases h : jsonSerializable (metadataValue vn s.length c (compute_dataset_hash s)) = true
  · left
    rw [if_pos h]
    exact ⟨h, rfl⟩
  · right
    rw [if_neg h]
    exact ⟨Bool.eq_false_iff.mpr h, rfl⟩

theorem build_dataset_cases (configFile : ConfigFile)
    (ingest : Except PipelineError (List Sample)) :
    (∃ e, build_dataset_from_config configFile ingest = ([], Except.error e)) ∨
    (∃ s vn c od, build_dataset_from_config configFile ingest
      = create_dataset_version_effects s vn c od) := by
  cases configFile with
  | absent => exact Or.inl ⟨_, rfl⟩
  | malformedYaml => exact Or.inl ⟨_, rfl⟩
  | parsed v =>
    cases v with
    | dict kvs =>
      unfold build_dataset_from_config
      cases h1 : requiredKey kvs "input_path" with
      | error e => exact Or.inl ⟨e, by simp [h1]⟩
      | ok w1 =>
        cases h2 : requiredKey kvs "source" with
        | error e => exact Or.inl ⟨e, by simp [h1, h2]⟩
        | ok w2 =>
          cases ingest with
          | error e => exact Or.inl ⟨e, by simp [h1, h2]⟩
          | ok samples =>
            cases h3 : toFilterConfig kvs with
            | error e => exact Or.inl ⟨e, by simp [h1, h2, h3]⟩
            | ok fcfg =>
              cases h4 : requiredKey kvs "version_name" with
              | error e => exact Or.inl ⟨e, by simp [h1, h2, h3, h4]⟩
              | ok vn =>
                cases h5 : asStr vn with
                | none =>
                  exact Or.inl ⟨PipelineError.typeError,
                    by simp [h1, h2, h3, h4, h5]⟩
                | some version_name =>
                  cases h6 : dictFind kvs "output_dir" with
                  | none =>
                    exact Or.inr ⟨clean_and_filter samples fcfg, version_name,
                      PyValue.dict kvs, "artifacts/datasets",
                      by simp [h1, h2, h3, h4, h5, h6]⟩
                  | some w =>
                    cases h7 : asStr w with
                    | none =>
                      exact Or.inl ⟨PipelineError.typeError,
                        by simp [h1, h2, h3, h4, h5, h6, h7]⟩
                    | some od =>
                      exact Or.inr ⟨clean_and_filter samples fcfg, version_name,
                        PyValue.dict kvs, od,
                        by simp [h1, h2, h3, h4, h5, h6, h7]⟩
    | none => exact Or.inl ⟨_, rfl⟩
    | bool b => exact Or.inl ⟨_, rfl⟩
    | int n => exact Or.inl ⟨_, rfl⟩
    | str s => exact Or.inl ⟨_, rfl⟩
    | list xs => exact Or.inl ⟨_, rfl⟩
    | date y m d => exact Or.inl ⟨_, rfl⟩

/-- C9 (amended): the orchestrator fails when the config file is missing,
malformed, not a dict, or lacks `input_path`/`source`/`version_name`.  Any
failure in config loading, validation, ingestion, or filtering performs no
filesystem writes: a failing run either wrote nothing, or it failed in
exactly one way — the metadata value was not JSON serializable (e.g. a
YAML-parsed date in the config), detected only after the version directory
and `data.jsonl` were written and `metadata.json` was truncated — so such
a failed run does produce a new/updated version artifact.  A completed run
performs exactly the full write sequence. -/
theorem build_dataset_failfast (configFile : ConfigFile)
    (ingest : Except PipelineError (List Sample)) :
    (configFile = ConfigFile.absent →
      build_dataset_from_config configFile ingest
        = ([], Except.error PipelineError.fileNotFound)) ∧
    (configFile = ConfigFile.malformedYaml →
      build_dataset_from_config configFile ingest
        = ([], Except.error PipelineError.yamlError)) ∧
    (∀ v, configFile = ConfigFile.parsed v → (∀ kvs, v ≠ PyValue.dict kvs) →
      build_dataset_from_config configFile ingest
        = ([], Except.error PipelineError.configNotDict)) ∧
    (∀ kvs, configFile = ConfigFile.parsed (PyValue.dict kvs) →
      ∀ k ∈ ["input_path", "source", "version_name"], dictFind kvs k = Option.none →
        (build_dataset_from_config configFile ingest).1 = [] ∧
        ∃ e, (build_dataset_from_config configFile ingest).2 = Except.error e) ∧
    (∀ e, (build_dataset_from_config configFile ingest).2 = Except.error e →
      (build_dataset_from_config configFile ingest).1 = [] ∨
      (e = PipelineError.typeError ∧ ∃ s vn c od,
        build_dataset_from_config configFile ingest
          = create_dataset_version_effects s vn c od ∧
        jsonSerializable (metadataValue vn s.length c (compute_dataset_hash s)) = false ∧
        (build_dataset_from_config configFile ingest).1
          = [WriteEvent.mkdirVersionDir (od ++ "/" ++ vn),
             WriteEvent.writeDataFile (od ++ "/" ++ vn ++ "/data.jsonl")
               (String.join (s.map fun u => jsonDumpStrObj (_sample_to_dict u) ++ "\n")),
             WriteEvent.openMetadataFile (od ++ "/" ++ vn ++ "/metadata.json")])) ∧
    (∀ vpath, (build_dataset_from_config configFile ingest).2 = Except.ok vpath →
      ∃ content, (build_dataset_from_config configFile ingest).1
        = [WriteEvent.mkdirVersionDir vpath,
           WriteEvent.writeDataFile (vpath ++ "/data.jsonl") content,
           WriteEvent.openMetadataFile (vpath ++ "/metadata.json"),
           WriteEvent.writeMetadataFile (vpath ++ "/metadata.json")]) := by
  refine ⟨?_, ?_, ?_, ?_, ?_, ?_⟩
  · intro h
    subst h
    rfl
  · intro h
    subst h
    rfl
  · intro v hcf hnd
    subst hcf
    cases v with
    | dict kvs => exact absurd rfl (hnd kvs)
    | none => rfl
    | bool b => rfl
    | int n => rfl
    | str s => rfl
    | list xs => rfl
    | date y m d => rfl
  · intro kvs hcf k hk hfind
    subst hcf
    have hkey : requiredKey kvs k = Except.error (PipelineError.keyError k) := by
      unfold requiredKey
      rw [hfind]
    simp only [List.mem_cons, List.mem_singleton, List.not_mem_nil, or_false] at hk
    rcases hk with rfl | rfl | rfl
    · refine ⟨?_, PipelineError.keyError "input_path", ?_⟩ <;>
        simp [build_dataset_from_config, hkey]
    · cases h1 : requiredKey kvs "input_path" with
      | error e =>
        refine ⟨?_, e, ?_⟩ <;> simp [build_dataset_from_config, h1]
      | ok w1 =>
        refine ⟨?_, PipelineError.keyError "source", ?_⟩ <;>
          simp [build_dataset_from_config, h1, hkey]
    · cases h1 : requiredKey kvs "input_path" with
      | error e =>
        refine ⟨?_, e, ?_⟩ <;> simp [build_dataset_from_config, h1]
      | ok w1 =>
        cases h2 : requiredKey kvs "source" with
        | error e =>
          refine ⟨?_, e, ?_⟩ <;> simp [build_dataset_from_config, h1, h2]
        | ok w2 =>
          cases ingest with
          | error e =>
            refine ⟨?_, e, ?_⟩ <;> simp [build_dataset_from_config, h1, h2]
          | ok samples =>
            cases h3 : toFilterConfig kvs with
            | error e =>
              refine ⟨?_, e, ?_⟩ <;> simp [build_dataset_from_config, h1, h2, h3]
            | ok fcfg =>
              refine ⟨?_, PipelineError.keyError "version_name", ?_⟩ <;>
                simp [build_dataset_from_config, h1, h2, h3, hkey]
  · intro e he
    rcases build_dataset_cases configFile ingest with ⟨e₂, heq⟩ | ⟨s, vn, c, od, heq⟩
    · left
      rw [heq]
    · rcases create_dataset_version_effects_cases s vn c od with ⟨hser, hok⟩ | ⟨hser, herr⟩
      · rw [heq, hok] at he
        exact absurd he (by simp)
      · right
        rw [heq, herr] at he
        have he' : PipelineError.typeError = e := by simpa using he
        subst he'
        refine ⟨rfl, s, vn, c, od, heq, hser, ?_⟩
        rw [heq, herr]
  · intro vpath hok
    rcases build_dataset_cases configFile ingest with ⟨e₂, heq⟩ | ⟨s, vn, c, od, heq⟩
    · rw [heq] at hok
      exact absurd hok (by simp)
    · rcases create_dataset_version_effects_cases s vn c od with ⟨hser, hyes⟩ | ⟨hser, herr⟩
      · rw [heq, hyes] at hok
        have hv : od ++ "/" ++ vn = vpath := by simpa using hok
        subst hv
        refine ⟨String.join (s.map fun u => jsonDumpStrObj (_sample_to_dict u) ++ "\n"), ?_⟩
        rw [heq, hyes]
      · rw [heq, herr] at hok
        exact absurd hok (by simp)

theorem build_dataset_failfast_witness :
    ConfigFile.absent = ConfigFile.absent ∧
    build_dataset_from_config ConfigFile.absent (Except.ok [])
      = ([], Except.error PipelineError.fileNotFound) :=
  ⟨rfl, (build_dataset_failfast ConfigFile.absent (Except.ok [])).1 rfl⟩

/-- The config used by the C9 counterexample: all required keys present
and well-typed, plus an unrecognized key holding a YAML-parsed date
(`created: 2024-01-01` parses to `datetime.date`). -/
def dateConfig : List (String × PyValue) :=
  [("input_path", PyValue.str "data/input.txt"), ("source", PyValue.str "demo"),
   ("version_name", PyValue.str "v1"), ("created", PyValue.date 2024 1 1)]

/-- C9 counterexample: with this config every stage up to the version
write succeeds and `data.jsonl` is written; then `json.dump` of the
metadata raises `TypeError` on the date — the failed run has produced a
new/updated version artifact, contradicting the claim that a failing run
leaves the artifact tree unchanged. -/
theorem build_dataset_partial_write :
    (build_dataset_from_config (ConfigFile.parsed (PyValue.dict dateConfig))
        (Except.ok [demoSample])).2 = Except.error PipelineError.typeError ∧
    WriteEvent.writeDataFile "artifacts/datasets/v1/data.jsonl"
        (jsonDumpStrObj (_sample_to_dict demoSample) ++ "\n")
      ∈ (build_dataset_from_config (ConfigFile.parsed (PyValue.dict dateConfig))
          (Except.ok [demoSample])).1 := by
  constructor
  · rfl
  · decide

end LLMDataPlatform
